import Mathlib

/-!
# Stack frames of the `errors` package

A shallow embedding of `stack_go18.go` (build tag `!go1.9`) and
`stack_go19.go` (build tag `go1.9`), the two variants of `Frame` and of
`(*stack).StackTrace`.

* `uintptr` values are natural numbers; arithmetic on them is taken modulo
  `2 ^ w`, where `w` is the width of a machine word.
* The Go runtime is not part of the package.  What the package uses of it
  (`runtime.FuncForPC`, `(*runtime.Func).Name`, `(*runtime.Func).FileLine`,
  `runtime.CallersFrames`, `(*runtime.Frames).Next`) is collected in the
  structure `Runtime`, the symbol table of the running program, over which
  every statement is quantified.
* A `*runtime.Func` is an `Option Fn`: `none` is the nil pointer.
* Go strings are Lean strings, Go `int` is `Int`.
-/

set_option autoImplicit false

/-! ## Machine words -/

/-- Subtraction of two `uintptr` values on a machine with `w`-bit words. -/
def uintptrSub (w a b : Nat) : Nat :=
  (a + 2 ^ w - b % 2 ^ w) % 2 ^ w

/-! ## The part of the Go runtime the package calls -/

/-- The Go type `runtime.Frame`; `Func` is a possibly nil `*runtime.Func`. -/
structure RuntimeFrame (Fn : Type) where
  PC : Nat
  Func : Option Fn
  Function : String
  File : String
  Line : Int
  Entry : Nat

/-- The zero value of `runtime.Frame`. -/
def RuntimeFrame.zero (Fn : Type) : RuntimeFrame Fn :=
  { PC := 0, Func := none, Function := "", File := "", Line := 0, Entry := 0 }

/-- The Go type `runtime.Frames`: the call frames the iterator has not
returned yet. -/
structure Frames (Fn : Type) where
  frames : List (RuntimeFrame Fn)

/-- The method `(*runtime.Frames).Next`: the next call frame, whether a further
call will return a valid frame, and the advanced iterator.  Once all frames
have been returned it returns the zero `runtime.Frame` and `false`. -/
def Frames.Next {Fn : Type} (ci : Frames Fn) : RuntimeFrame Fn × Bool × Frames Fn :=
  match ci.frames with
  | [] => (RuntimeFrame.zero Fn, false, ci)
  | f :: rest => (f, !rest.isEmpty, { frames := rest })

/-- The symbol table of the running program, as seen through package `runtime`. -/
structure Runtime (Fn : Type) where
  /-- The function `runtime.FuncForPC`: the function enclosing an address, or nil. -/
  FuncForPC : Nat → Option Fn
  /-- The method `(*runtime.Func).Name` on a non-nil receiver. -/
  Name : Fn → String
  /-- The method `(*runtime.Func).FileLine` on a non-nil receiver. -/
  FileLine : Fn → Nat → String × Int
  /-- The function `runtime.CallersFrames`. -/
  CallersFrames : List Nat → Frames Fn

/-- The method `(*runtime.Func).Name`, which returns the empty string on a nil
receiver. -/
def Runtime.FuncName {Fn : Type} (rt : Runtime Fn) : Option Fn → String
  | none => ""
  | some fn => rt.Name fn

/-- The type `stack`, a slice of `uintptr`. -/
abbrev stack := List Nat

/-! ## `stack_go18.go` -/

namespace Go18

/-- The struct `Frame` of `stack_go18.go`: a program counter inside a stack frame. -/
structure Frame where
  pcp : Nat
deriving DecidableEq, Repr

/-- The method `func (f Frame) pc() uintptr { return f.pcp - 1 }`. -/
def Frame.pc (w : Nat) (f : Frame) : Nat :=
  uintptrSub w f.pcp 1

/-- The method `func (f Frame) runtimeFunc() *runtime.Func`. -/
def Frame.runtimeFunc {Fn : Type} (rt : Runtime Fn) (w : Nat) (f : Frame) : Option Fn :=
  rt.FuncForPC (f.pc w)

/-- The method `func (f Frame) function() string`. -/
def Frame.function {Fn : Type} (rt : Runtime Fn) (w : Nat) (f : Frame) : String :=
  rt.FuncName (f.runtimeFunc rt w)

/-- The method `func (f Frame) file() string`. -/
def Frame.file {Fn : Type} (rt : Runtime Fn) (w : Nat) (f : Frame) : String :=
  match f.runtimeFunc rt w with
  | none => "unknown"
  | some fn => (rt.FileLine fn (f.pc w)).1

/-- The method `func (f Frame) line() int`. -/
def Frame.line {Fn : Type} (rt : Runtime Fn) (w : Nat) (f : Frame) : Int :=
  match f.runtimeFunc rt w with
  | none => 0
  | some fn => (rt.FileLine fn (f.pc w)).2

/-- The loop `for i := 0; i < len(f); i++ { f[i] = Frame{(*s)[i]} }` of
`StackTrace`, entered with loop counter `i` and slice `f`.  The slice `f` is as
long as `*s`, so the index `i` is in range for `*s` whenever the body runs. -/
def StackTrace.loop (s : stack) (i : Nat) (f : List Frame) : List Frame :=
  if i < f.length then
    StackTrace.loop s (i + 1) (f.set i { pcp := s.getD i 0 })
  else
    f
termination_by f.length - i
decreasing_by simp only [List.length_set]; omega

/-- The method `func (s *stack) StackTrace() StackTrace` of `stack_go18.go`. -/
def StackTrace (s : stack) : List Frame :=
  StackTrace.loop s 0 (List.replicate s.length { pcp := 0 })

end Go18

/-! ## `stack_go19.go` -/

namespace Go19

/-- The struct `Frame` of `stack_go19.go`: call frame information from a stack trace. -/
structure Frame (Fn : Type) where
  rf : RuntimeFrame Fn

/-- The zero value `Frame{}`. -/
def Frame.zero (Fn : Type) : Frame Fn :=
  { rf := RuntimeFrame.zero Fn }

/-- The method `func (f Frame) runtimeFunc() *runtime.Func`. -/
def Frame.runtimeFunc {Fn : Type} (f : Frame Fn) : Option Fn :=
  f.rf.Func

/-- The method `func (f Frame) function() string`. -/
def Frame.function {Fn : Type} (f : Frame Fn) : String :=
  f.rf.Function

/-- The method `func (f Frame) file() string`. -/
def Frame.file {Fn : Type} (f : Frame Fn) : String :=
  f.rf.File

/-- The method `func (f Frame) line() int`. -/
def Frame.line {Fn : Type} (f : Frame Fn) : Int :=
  f.rf.Line

/-- The loop of `StackTrace`:
`for { f, more := cframes.Next(); frames = append(frames, Frame{f}); if !more { break } }`. -/
def StackTrace.loop {Fn : Type} (cframes : Frames Fn) (frames : List (Frame Fn)) :
    List (Frame Fn) :=
  if h : cframes.Next.2.1 = true then
    StackTrace.loop cframes.Next.2.2 (frames ++ [{ rf := cframes.Next.1 }])
  else
    frames ++ [{ rf := cframes.Next.1 }]
termination_by cframes.frames.length
decreasing_by
  unfold Frames.Next at *
  cases hfr : cframes.frames with
  | nil => rw [hfr] at h; simp at h
  | cons f rest => simp

/-- The method `func (s *stack) StackTrace() StackTrace` of `stack_go19.go`. -/
def StackTrace {Fn : Type} (rt : Runtime Fn) (s : stack) : List (Frame Fn) :=
  StackTrace.loop (rt.CallersFrames s) []

end Go19

/-! ## `stack.go`: names and formatting

The file `stack.go` of the package (`funcname`, `Frame.Format`,
`StackTrace.Format`) is not among the source files; its functions are
modelled from the specification of the package. -/

/-- Modelled from the spec: the helper of `funcname` and of the short-file verb
that is absent from the sources, "strip every path segment up through the
last `/`": what follows the last occurrence of `c`, and the whole sequence
when `c` does not occur. -/
def stripThroughLast (c : Char) : List Char → List Char
  | [] => []
  | x :: xs =>
    if c ∈ xs then stripThroughLast c xs
    else if x = c then xs
    else x :: xs

/-- Modelled from the spec: the helper of `funcname` that is absent from the
sources, "strip everything through the first `.`": what follows the first
occurrence of `c`, and the whole sequence when `c` does not occur. -/
def stripThroughFirst (c : Char) : List Char → List Char
  | [] => []
  | x :: xs =>
    if x = c then xs
    else if c ∈ xs then stripThroughFirst c xs
    else x :: xs

/-- Modelled from the spec: `funcname` of `stack.go`, which is absent from the
sources: "strip every path segment up through the last `/`, then also strip
everything through the first `.` after that".  A receiver `(*Type)` follows
that first `.` and is therefore kept. -/
def funcname (name : String) : String :=
  String.mk (stripThroughFirst '.' (stripThroughLast '/' name.toList))

/-- Modelled from the spec: the "base name of file only (no directory)" that
the short-file verb of `Frame.Format` (absent from the sources) prints. -/
def basename (file : String) : String :=
  String.mk (stripThroughLast '/' file.toList)

/-- Modelled from the spec: the verbs of `Frame.Format` (absent from the
sources), in the order of the table of verbs: `%s`, `%+s`, `%d`, `%n`, `%v`,
`%+v`. -/
inductive Verb where
  | s
  | plusS
  | d
  | n
  | v
  | plusV
deriving DecidableEq, Repr

/-- Modelled from the spec: what `Frame.Format` (absent from the sources) asks
of a frame, whichever build variant defines it: whether the runtime resolves
it, and its `function()`, `file()` and `line()`. -/
structure FrameMethods (F : Type) where
  resolved : F → Bool
  function : F → String
  file : F → String
  line : F → Int

/-- Modelled from the spec: `Frame.Format` of `stack.go`, absent from the
sources, row by row from the table of verbs (output when resolvable, output
when unresolvable).  The path shortening is the parameter `shorten`. -/
def Frame.Format {F : Type} (m : FrameMethods F) (shorten : String → String)
    (verb : Verb) (f : F) : String :=
  let shortFile := if m.resolved f then basename (m.file f) else "unknown"
  let longFile :=
    if m.resolved f then m.function f ++ "\n\t" ++ shorten (m.file f) else "unknown"
  let lineNumber := if m.resolved f then toString (m.line f) else "0"
  let shortFunction := if m.resolved f then funcname (m.function f) else ""
  match verb with
  | .s => shortFile
  | .plusS => longFile
  | .d => lineNumber
  | .n => shortFunction
  | .v => shortFile ++ ":" ++ lineNumber
  | .plusV => longFile ++ ":" ++ lineNumber

/-- Modelled from the spec: the verbs of `StackTrace.Format` (absent from the
sources): the compact verbs `%s` and `%v`, and the verbose verb `%+v`. -/
inductive TraceVerb where
  | s
  | v
  | plusV
deriving DecidableEq, Repr

/-- Modelled from the spec: the loop of the compact verbs of
`StackTrace.Format` (absent from the sources), a "space-separated list": a
space is written to the buffer before every frame but the first. -/
def StackTrace.writeFrames {F : Type} (render : F → String) :
    Nat → List F → String → String
  | _, [], buf => buf
  | i, f :: rest, buf =>
    StackTrace.writeFrames render (i + 1) rest
      ((if 0 < i then buf ++ " " else buf) ++ render f)

/-- Modelled from the spec: the loop of the verbose verb of
`StackTrace.Format` (absent from the sources): "each frame on its own line
prefixed by a newline", nothing else. -/
def StackTrace.writeLines {F : Type} (render : F → String) : List F → String → String
  | [], buf => buf
  | f :: rest, buf => StackTrace.writeLines render rest (buf ++ "\n" ++ render f)

/-- Modelled from the spec: `StackTrace.Format` of `stack.go`, absent from the
sources.  A `StackTrace` is a slice of frames, `none` being the nil slice.
The compact verbs print the frames between brackets, the verbose verb prints
them without brackets. -/
def StackTrace.Format {F : Type} (render : Verb → F → String) :
    TraceVerb → Option (List F) → String
  | .s, st => StackTrace.writeFrames (render .s) 0 (st.getD []) "[" ++ "]"
  | .v, st => StackTrace.writeFrames (render .v) 0 (st.getD []) "[" ++ "]"
  | .plusV, st => StackTrace.writeLines (render .plusV) (st.getD []) ""

/-- The methods of a `Frame` of `stack_go18.go`, for formatting. -/
def Go18.Frame.methods {Fn : Type} (rt : Runtime Fn) (w : Nat) : FrameMethods Go18.Frame where
  resolved := fun f => (f.runtimeFunc rt w).isSome
  function := Go18.Frame.function rt w
  file := Go18.Frame.file rt w
  line := Go18.Frame.line rt w

/-! ## A symbol table to evaluate on -/

/-- A symbol table with one function, entered at address 100 and covering the
addresses 100 to 199, whose line at an address is the address itself; the
frame iterator reports each return address at the address before it. -/
def demoRuntime : Runtime Nat where
  FuncForPC := fun pc => if 100 ≤ pc ∧ pc < 200 then some 100 else none
  Name := fun _ => "github.com/pkg/errors.init"
  FileLine := fun _ pc => ("/go/src/github.com/pkg/errors/stack_test.go", (pc : Int))
  CallersFrames := fun s =>
    { frames := s.map fun pc =>
        { PC := pc - 1
          Func := if 100 ≤ pc - 1 ∧ pc - 1 < 200 then some 100 else none
          Function := "github.com/pkg/errors.init"
          File := "/go/src/github.com/pkg/errors/stack_test.go"
          Line := ((pc - 1 : Nat) : Int)
          Entry := 100 } }

/-! ## Machine words: lemmas -/

theorem uintptrSub_one (w a : Nat) : uintptrSub w a 1 = (a + 2 ^ w - 1) % 2 ^ w := by
  unfold uintptrSub
  cases w with
  | zero => simp [Nat.mod_one]
  | succ n =>
    have h : 1 < 2 ^ (n + 1) := Nat.one_lt_two_pow (by omega)
    rw [Nat.mod_eq_of_lt h]

/-! ## `stack_go18.go`: resolution of a frame -/

namespace Go18

/-- The accessors of a frame whose corrected address has an enclosing function. -/
theorem Frame.resolved_accessors {Fn : Type} (rt : Runtime Fn) (w : Nat) (f : Frame)
    (fn : Fn) (h : rt.FuncForPC ((f.pcp + 2 ^ w - 1) % 2 ^ w) = some fn) :
    f.file rt w = (rt.FileLine fn ((f.pcp + 2 ^ w - 1) % 2 ^ w)).1 ∧
    f.line rt w = (rt.FileLine fn ((f.pcp + 2 ^ w - 1) % 2 ^ w)).2 ∧
    f.function rt w = rt.Name fn := by
  simp only [Frame.file, Frame.line, Frame.function, Frame.runtimeFunc, Frame.pc,
    uintptrSub_one, h, Runtime.FuncName, and_self]

/-- C1. Before Go 1.9, when the symbol table has a function `fn` enclosing the
corrected address `f.pcp - 1` (taken on `w`-bit words), `f.file()` and
`f.line()` are the file and the line the symbol table gives for `fn` at that
corrected address, and `f.function()` is the name of `fn`. -/
theorem resolve_at_corrected_address {Fn : Type} (rt : Runtime Fn) (w : Nat) (f : Frame)
    (fn : Fn) (h : rt.FuncForPC ((f.pcp + 2 ^ w - 1) % 2 ^ w) = some fn) :
    f.file rt w = (rt.FileLine fn ((f.pcp + 2 ^ w - 1) % 2 ^ w)).1 ∧
    f.line rt w = (rt.FileLine fn ((f.pcp + 2 ^ w - 1) % 2 ^ w)).2 ∧
    f.function rt w = rt.Name fn :=
  Frame.resolved_accessors rt w f fn h

/-- The frame with raw address 151 resolves at address 150: line 150, neither
line 151 (the raw address) nor line 100 (the entry of the function). -/
theorem resolve_at_corrected_address_witness :
    demoRuntime.FuncForPC ((151 + 2 ^ 64 - 1) % 2 ^ 64) = some 100 ∧
    (Frame.file demoRuntime 64 { pcp := 151 }
        = (demoRuntime.FileLine 100 ((151 + 2 ^ 64 - 1) % 2 ^ 64)).1 ∧
      Frame.line demoRuntime 64 { pcp := 151 }
        = (demoRuntime.FileLine 100 ((151 + 2 ^ 64 - 1) % 2 ^ 64)).2 ∧
      Frame.function demoRuntime 64 { pcp := 151 } = demoRuntime.Name 100) :=
  ⟨by decide, resolve_at_corrected_address demoRuntime 64 { pcp := 151 } 100 (by decide)⟩

/-- The frame with raw address 151 has line 150, which differs from the line at
the raw address 151 and from the line at the entry 100 of the function. -/
theorem Frame.line_demo :
    Frame.line demoRuntime 64 { pcp := 151 } = 150 ∧
    Frame.line demoRuntime 64 { pcp := 151 } ≠ (demoRuntime.FileLine 100 151).2 ∧
    Frame.line demoRuntime 64 { pcp := 151 } ≠ (demoRuntime.FileLine 100 100).2 := by
  decide

/-- C2. Before Go 1.9, when the symbol table has no function enclosing the
corrected address `f.pcp - 1`, the three accessors return the sentinel values:
`f.function()` is empty, `f.file()` is `"unknown"` and `f.line()` is `0`. -/
theorem unresolved_gives_sentinels {Fn : Type} (rt : Runtime Fn) (w : Nat) (f : Frame)
    (h : rt.FuncForPC ((f.pcp + 2 ^ w - 1) % 2 ^ w) = none) :
    f.function rt w = "" ∧ f.file rt w = "unknown" ∧ f.line rt w = 0 := by
  simp only [Frame.file, Frame.line, Frame.function, Frame.runtimeFunc, Frame.pc,
    uintptrSub_one, h, Runtime.FuncName, and_self]

/-- The zero-valued frame is unresolved in the demonstration symbol table. -/
theorem unresolved_gives_sentinels_witness :
    demoRuntime.FuncForPC ((0 + 2 ^ 64 - 1) % 2 ^ 64) = none ∧
    (Frame.function demoRuntime 64 { pcp := 0 } = "" ∧
      Frame.file demoRuntime 64 { pcp := 0 } = "unknown" ∧
      Frame.line demoRuntime 64 { pcp := 0 } = 0) :=
  ⟨by decide, unresolved_gives_sentinels demoRuntime 64 { pcp := 0 } (by decide)⟩

/-- C10. Before Go 1.9, on `w`-bit words (`0 < w`), `f.pc()` is `f.pcp - 1`
reduced modulo `2 ^ w`, so that `f.pc() + 1` is congruent to `f.pcp`; the
zero-valued frame is looked up at address `2 ^ w - 1`, which is not address 0. -/
theorem pc_wraps {Fn : Type} (rt : Runtime Fn) (w : Nat) (hw : 0 < w) (f : Frame) :
    ((f.pc w : Nat) : Int) = ((f.pcp : Int) - 1) % (2 : Int) ^ w ∧
    (f.pc w + 1) % 2 ^ w = f.pcp % 2 ^ w ∧
    Frame.pc w { pcp := 0 } = 2 ^ w - 1 ∧
    Frame.pc w { pcp := 0 } ≠ 0 ∧
    Frame.runtimeFunc rt w { pcp := 0 } = rt.FuncForPC (2 ^ w - 1) := by
  have h1 : 1 < 2 ^ w := Nat.one_lt_two_pow (by omega)
  have hz : Frame.pc w { pcp := 0 } = 2 ^ w - 1 := by
    simp only [Frame.pc, uintptrSub_one, Nat.zero_add]
    exact Nat.mod_eq_of_lt (by omega)
  refine ⟨?_, ?_, hz, ?_, ?_⟩
  · simp only [Frame.pc, uintptrSub_one]
    have hp : (1 : Int) ≤ 2 ^ w := by exact_mod_cast h1.le
    have e : ((f.pcp + 2 ^ w - 1 : Nat) : Int) = ((f.pcp : Int) - 1) + (2 : Int) ^ w := by
      have : 1 ≤ f.pcp + 2 ^ w := by omega
      push_cast [Nat.cast_sub this]
      ring
    rw [Int.natCast_mod, e]
    push_cast
    rw [Int.add_emod_self]
  · simp only [Frame.pc, uintptrSub_one]
    have e : f.pcp + 2 ^ w - 1 + 1 = f.pcp + 2 ^ w := by omega
    rw [Nat.mod_add_mod, e, Nat.add_mod_right]
  · rw [hz]; omega
  · simp only [Frame.runtimeFunc, hz]

/-- On 64-bit words the zero-valued frame is looked up at `2 ^ 64 - 1`. -/
theorem pc_wraps_witness :
    0 < 64 ∧
    (((Frame.pc 64 { pcp := 0 } : Nat) : Int) = (((0 : Nat) : Int) - 1) % (2 : Int) ^ 64 ∧
      (Frame.pc 64 { pcp := 0 } + 1) % 2 ^ 64 = 0 % 2 ^ 64 ∧
      Frame.pc 64 { pcp := 0 } = 2 ^ 64 - 1 ∧
      Frame.pc 64 { pcp := 0 } ≠ 0 ∧
      Frame.runtimeFunc demoRuntime 64 { pcp := 0 } = demoRuntime.FuncForPC (2 ^ 64 - 1)) :=
  ⟨by decide, pc_wraps demoRuntime 64 (by decide) { pcp := 0 }⟩

end Go18

/-! ## `stack_go18.go`: the stack trace -/

namespace Go18

/-- The loop of `StackTrace`, entered at counter `i` with a slice as long as
the stack, leaves the frames before `i` and fills in the raw addresses from
`i` on. -/
theorem StackTrace.loop_getElem? (s : stack) :
    ∀ (n i : Nat) (f : List Frame), f.length = s.length → n = s.length - i →
      ∀ k, (StackTrace.loop s i f)[k]? = if k < i then f[k]? else s[k]?.map Frame.mk := by
  intro n
  induction n with
  | zero =>
    intro i f hf hn k
    have hi : ¬ i < f.length := by omega
    rw [StackTrace.loop, if_neg hi]
    by_cases hk : k < i
    · rw [if_pos hk]
    · rw [if_neg hk]
      have h1 : f.length ≤ k := by omega
      have h2 : s.length ≤ k := by omega
      rw [List.getElem?_eq_none h1, List.getElem?_eq_none h2]
      rfl
  | succ n ih =>
    intro i f hf hn k
    have hi : i < f.length := by omega
    have his : i < s.length := by omega
    rw [StackTrace.loop, if_pos hi]
    rw [ih (i + 1) (f.set i { pcp := s.getD i 0 }) (by simp [hf]) (by omega) k]
    by_cases hk : k < i
    · have hk1 : k < i + 1 := by omega
      have hne : i ≠ k := by omega
      rw [if_pos hk, if_pos hk1, List.getElem?_set_ne hne]
    · rw [if_neg hk]
      by_cases hki : k = i
      · subst hki
        rw [if_pos (by omega), List.getElem?_set_self hi, List.getElem?_eq_getElem his]
        simp [List.getD_eq_getElem?_getD, List.getElem?_eq_getElem his]
      · rw [if_neg (by omega)]

/-- Before Go 1.9, `StackTrace` wraps every raw address of the stack, in order. -/
theorem StackTrace_eq_map (s : stack) : StackTrace s = s.map Frame.mk := by
  apply List.ext_getElem?
  intro k
  rw [StackTrace, StackTrace.loop_getElem? s s.length 0 _ (by simp) (by omega) k]
  simp

/-- C4. Before Go 1.9, for a raw stack `s` (empty or not) captured under the
bound `bound`, `s.StackTrace()` has exactly `len(s)` frames, its `i`-th frame
carries the `i`-th raw address of `s` (at every index, and so in the order of
`s`), and it is no longer than `bound`. -/
theorem StackTrace_frames (s : stack) (bound : Nat) (hb : s.length ≤ bound) :
    (StackTrace s).length = s.length ∧
    (∀ i : Nat, (StackTrace s)[i]? = s[i]?.map Frame.mk) ∧
    (StackTrace s).map Frame.pcp = s ∧
    (StackTrace s).length ≤ bound := by
  rw [StackTrace_eq_map]
  refine ⟨by simp, fun i => by simp, ?_, by simpa using hb⟩
  rw [List.map_map]
  exact List.map_id s

/-- A stack of two return addresses captured under the bound 32, and the empty
stack. -/
theorem StackTrace_frames_witness :
    ([151, 161] : stack).length ≤ 32 ∧
    ((StackTrace [151, 161]).length = ([151, 161] : stack).length ∧
      (∀ i : Nat, (StackTrace [151, 161])[i]? = ([151, 161] : stack)[i]?.map Frame.mk) ∧
      (StackTrace [151, 161]).map Frame.pcp = [151, 161] ∧
      (StackTrace [151, 161]).length ≤ 32) :=
  ⟨by decide, StackTrace_frames [151, 161] 32 (by decide)⟩

end Go18

/-! ## `stack_go19.go`: the zero-valued frame and the stack trace -/

namespace Go19

/-- C3. From Go 1.9 on, the zero-valued `Frame{}` has `function()` empty and
`line()` zero, but its `file()` is the empty string, not `"unknown"`. -/
theorem zero_frame_accessors (Fn : Type) :
    (Frame.zero Fn).function = "" ∧
    (Frame.zero Fn).line = 0 ∧
    (Frame.zero Fn).file = "" ∧
    (Frame.zero Fn).file ≠ "unknown" := by
  refine ⟨rfl, rfl, rfl, ?_⟩
  show ("" : String) ≠ "unknown"
  decide

/-- The loop of `StackTrace` on an iterator with nothing left appends the
zero-valued frame. -/
theorem StackTrace.loop_nil {Fn : Type} (acc : List (Frame Fn)) :
    StackTrace.loop { frames := [] } acc = acc ++ [Frame.zero Fn] := by
  rw [StackTrace.loop]
  simp [Frames.Next, Frame.zero]

/-- The loop of `StackTrace` on an iterator with frames left appends them, one
`Frame` for each, in the order of the iterator. -/
theorem StackTrace.loop_cons {Fn : Type} (fs : List (RuntimeFrame Fn)) :
    ∀ (f : RuntimeFrame Fn) (acc : List (Frame Fn)),
      StackTrace.loop { frames := f :: fs } acc = acc ++ (f :: fs).map Frame.mk := by
  induction fs with
  | nil =>
    intro f acc
    rw [StackTrace.loop]
    simp [Frames.Next]
  | cons g rest ih =>
    intro f acc
    rw [StackTrace.loop]
    simp only [Frames.Next, List.isEmpty_cons, Bool.not_false, dite_true]
    rw [ih g]
    simp

/-- From Go 1.9 on, on a stack for which the iterator has frames, `StackTrace`
returns one `Frame` for each frame of the iterator, in its order. -/
theorem StackTrace_of_frames {Fn : Type} (rt : Runtime Fn) (s : stack)
    (hne : (rt.CallersFrames s).frames ≠ []) :
    StackTrace rt s = (rt.CallersFrames s).frames.map Frame.mk := by
  unfold StackTrace
  cases hfr : rt.CallersFrames s with
  | mk frames =>
    rw [hfr] at hne
    cases frames with
    | nil => exact absurd rfl hne
    | cons f fs => simpa using StackTrace.loop_cons fs f []

/-- From Go 1.9 on, for a non-empty raw stack for which the iterator yields
one frame per raw address, `StackTrace` returns exactly `len(s)` frames, those
of the iterator in its order. -/
theorem StackTrace_of_nonempty {Fn : Type} (rt : Runtime Fn) (s : stack) (hne : s ≠ [])
    (h : (rt.CallersFrames s).frames.length = s.length) :
    (StackTrace rt s).length = s.length ∧
    (StackTrace rt s).map Frame.rf = (rt.CallersFrames s).frames := by
  have hfr : (rt.CallersFrames s).frames ≠ [] := by
    intro h0
    rw [h0] at h
    exact hne (List.eq_nil_of_length_eq_zero (by simpa using h.symm))
  rw [StackTrace_of_frames rt s hfr]
  refine ⟨by simpa using h, ?_⟩
  rw [List.map_map]
  exact List.map_id _

/-- C5. From Go 1.9 on, for the empty raw stack, for which the iterator yields
one frame per raw address (none), `s.StackTrace()` is not the empty sequence:
it holds one frame, the zero-valued `Frame{}`. -/
theorem StackTrace_empty_stack {Fn : Type} (rt : Runtime Fn)
    (h : (rt.CallersFrames []).frames.length = ([] : stack).length) :
    StackTrace rt [] = [Frame.zero Fn] ∧
    (StackTrace rt []).length = 1 ∧
    (StackTrace rt []).length ≠ ([] : stack).length := by
  have hnil : rt.CallersFrames [] = { frames := [] } := by
    cases hfr : rt.CallersFrames [] with
    | mk frames =>
      rw [hfr] at h
      have : frames = [] := List.eq_nil_of_length_eq_zero (by simpa using h)
      rw [this]
  have e : StackTrace rt [] = [Frame.zero Fn] := by
    unfold StackTrace
    rw [hnil, StackTrace.loop_nil]
    rfl
  rw [e]
  exact ⟨rfl, rfl, by simp⟩

/-- The empty stack in the demonstration symbol table. -/
theorem StackTrace_empty_stack_witness :
    (demoRuntime.CallersFrames []).frames.length = ([] : stack).length ∧
    (StackTrace demoRuntime [] = [Frame.zero Nat] ∧
      (StackTrace demoRuntime []).length = 1 ∧
      (StackTrace demoRuntime []).length ≠ ([] : stack).length) :=
  ⟨rfl, StackTrace_empty_stack demoRuntime rfl⟩

end Go19

/-! ## The two build variants side by side -/

/-- C9. For a non-empty raw stack `s` all of whose corrected addresses
(address - 1 on `w`-bit words) resolve to a function, and for which the frame
iterator yields, address by address, the function, file and line found at
address - 1, the `StackTrace()` of `stack_go18.go` and the one of
`stack_go19.go` have the same length, and their `i`-th frames agree on
`function()`, `file()` and `line()`. -/
theorem variants_agree {Fn : Type} (rt : Runtime Fn) (w : Nat) (s : stack)
    (hne : s ≠ [])
    (hres : ∀ pc ∈ s, (rt.FuncForPC ((pc + 2 ^ w - 1) % 2 ^ w)).isSome = true)
    (hiter : List.Forall₂
      (fun pc fr => ∀ fn, rt.FuncForPC ((pc + 2 ^ w - 1) % 2 ^ w) = some fn →
        RuntimeFrame.Function fr = rt.Name fn ∧
        RuntimeFrame.File fr = (rt.FileLine fn ((pc + 2 ^ w - 1) % 2 ^ w)).1 ∧
        RuntimeFrame.Line fr = (rt.FileLine fn ((pc + 2 ^ w - 1) % 2 ^ w)).2)
      s (rt.CallersFrames s).frames) :
    (Go18.StackTrace s).length = (Go19.StackTrace rt s).length ∧
    ∀ (i : Nat) (h18 : i < (Go18.StackTrace s).length)
      (h19 : i < (Go19.StackTrace rt s).length),
      (Go18.StackTrace s)[i].function rt w = (Go19.StackTrace rt s)[i].function ∧
      (Go18.StackTrace s)[i].file rt w = (Go19.StackTrace rt s)[i].file ∧
      (Go18.StackTrace s)[i].line rt w = (Go19.StackTrace rt s)[i].line := by
  have hlen : s.length = (rt.CallersFrames s).frames.length := hiter.length_eq
  have hfr : (rt.CallersFrames s).frames ≠ [] := by
    intro h0
    rw [h0] at hlen
    exact hne (List.eq_nil_of_length_eq_zero (by simpa using hlen))
  have e18 : Go18.StackTrace s = s.map Go18.Frame.mk := Go18.StackTrace_eq_map s
  have e19 := Go19.StackTrace_of_frames rt s hfr
  refine ⟨by rw [e18, e19]; simpa using hlen, ?_⟩
  intro i h18 h19
  have hi : i < s.length := by simpa [e18] using h18
  have hj : i < (rt.CallersFrames s).frames.length := by omega
  have g18 : (Go18.StackTrace s)[i] = { pcp := s[i] } := by simp [e18]
  have g19 : (Go19.StackTrace rt s)[i] = { rf := (rt.CallersFrames s).frames[i] } := by
    simp [e19]
  rw [g18, g19]
  have hsome := hres s[i] (List.getElem_mem hi)
  obtain ⟨fn, hfn⟩ := Option.isSome_iff_exists.mp hsome
  have hrel := List.forall₂_iff_get.mp hiter
  have hi2 := hrel.2 i hi hj fn
  simp only [List.get_eq_getElem] at hi2
  obtain ⟨h1, h2, h3⟩ := hi2 hfn
  obtain ⟨k1, k2, k3⟩ := Go18.Frame.resolved_accessors rt w { pcp := s[i] } fn hfn
  refine ⟨?_, ?_, ?_⟩
  · rw [k3]; exact h1.symm
  · rw [k1]; exact h2.symm
  · rw [k2]; exact h3.symm

/-- Two return addresses inside the function of the demonstration symbol table,
on 64-bit words. -/
theorem variants_agree_witness :
    ([151, 161] : stack) ≠ [] ∧
    (∀ pc ∈ ([151, 161] : stack),
      (demoRuntime.FuncForPC ((pc + 2 ^ 64 - 1) % 2 ^ 64)).isSome = true) ∧
    List.Forall₂
      (fun pc fr => ∀ fn, demoRuntime.FuncForPC ((pc + 2 ^ 64 - 1) % 2 ^ 64) = some fn →
        RuntimeFrame.Function fr = demoRuntime.Name fn ∧
        RuntimeFrame.File fr = (demoRuntime.FileLine fn ((pc + 2 ^ 64 - 1) % 2 ^ 64)).1 ∧
        RuntimeFrame.Line fr = (demoRuntime.FileLine fn ((pc + 2 ^ 64 - 1) % 2 ^ 64)).2)
      ([151, 161] : stack) (demoRuntime.CallersFrames [151, 161]).frames ∧
    ((Go18.StackTrace [151, 161]).length = (Go19.StackTrace demoRuntime [151, 161]).length ∧
      ∀ (i : Nat) (h18 : i < (Go18.StackTrace [151, 161]).length)
        (h19 : i < (Go19.StackTrace demoRuntime [151, 161]).length),
        (Go18.StackTrace [151, 161])[i].function demoRuntime 64
          = (Go19.StackTrace demoRuntime [151, 161])[i].function ∧
        (Go18.StackTrace [151, 161])[i].file demoRuntime 64
          = (Go19.StackTrace demoRuntime [151, 161])[i].file ∧
        (Go18.StackTrace [151, 161])[i].line demoRuntime 64
          = (Go19.StackTrace demoRuntime [151, 161])[i].line) :=
  have hne : ([151, 161] : stack) ≠ [] := by decide
  have hres : ∀ pc ∈ ([151, 161] : stack),
      (demoRuntime.FuncForPC ((pc + 2 ^ 64 - 1) % 2 ^ 64)).isSome = true := by decide
  have hiter : List.Forall₂
      (fun pc fr => ∀ fn, demoRuntime.FuncForPC ((pc + 2 ^ 64 - 1) % 2 ^ 64) = some fn →
        RuntimeFrame.Function fr = demoRuntime.Name fn ∧
        RuntimeFrame.File fr = (demoRuntime.FileLine fn ((pc + 2 ^ 64 - 1) % 2 ^ 64)).1 ∧
        RuntimeFrame.Line fr = (demoRuntime.FileLine fn ((pc + 2 ^ 64 - 1) % 2 ^ 64)).2)
      ([151, 161] : stack) (demoRuntime.CallersFrames [151, 161]).frames :=
    List.Forall₂.cons (fun _ _ => ⟨rfl, rfl, by simp [demoRuntime]⟩)
      (List.Forall₂.cons (fun _ _ => ⟨rfl, rfl, by simp [demoRuntime]⟩) List.Forall₂.nil)
  ⟨hne, hres, hiter, variants_agree demoRuntime 64 [151, 161] hne hres hiter⟩

/-! ## `stack.go`: short function names -/

theorem stripThroughLast_of_not_mem (c : Char) (r : List Char) (h : c ∉ r) :
    stripThroughLast c r = r := by
  cases r with
  | nil => rfl
  | cons x xs =>
    have hx : ¬ x = c := fun e => h (e ▸ List.mem_cons_self x xs)
    have hxs : c ∉ xs := fun m => h (List.mem_cons_of_mem x m)
    simp [stripThroughLast, hx, hxs]

theorem stripThroughLast_append (c : Char) (r : List Char) (h : c ∉ r) :
    ∀ a : List Char, stripThroughLast c (a ++ c :: r) = r := by
  intro a
  induction a with
  | nil => simp [stripThroughLast, h]
  | cons x xs ih => simp [stripThroughLast, ih]

theorem stripThroughFirst_of_not_mem (c : Char) (r : List Char) (h : c ∉ r) :
    stripThroughFirst c r = r := by
  cases r with
  | nil => rfl
  | cons x xs =>
    have hx : ¬ x = c := fun e => h (e ▸ List.mem_cons_self x xs)
    have hxs : c ∉ xs := fun m => h (List.mem_cons_of_mem x m)
    simp [stripThroughFirst, hx, hxs]

theorem stripThroughFirst_append (c : Char) (r : List Char) :
    ∀ b : List Char, c ∉ b → stripThroughFirst c (b ++ c :: r) = r := by
  intro b
  induction b with
  | nil => intro _; simp [stripThroughFirst]
  | cons x xs ih =>
    intro h
    have hx : ¬ x = c := fun e => h (e ▸ List.mem_cons_self x xs)
    have hxs : c ∉ xs := fun m => h (List.mem_cons_of_mem x m)
    simp [stripThroughFirst, hx, ih hxs]

/-- C6. With `b` free of `/` and of `.`, and `c` free of `/`: `funcname` of
`a/b.c` and of `b.c` is `c` (what follows the first `.` after the last `/`),
`funcname` of `a/b` is `b` (all that follows the last `/`, there being no
`.`), and `funcname` of `b` is `b` itself; so it is on the four names of the
test. -/
theorem funcname_spec (a b c : String)
    (hb : '/' ∉ b.toList) (hb2 : '.' ∉ b.toList) (hc : '/' ∉ c.toList) :
    funcname (a ++ "/" ++ b ++ "." ++ c) = c ∧
    funcname (b ++ "." ++ c) = c ∧
    funcname (a ++ "/" ++ b) = b ∧
    funcname b = b ∧
    funcname "github.com/pkg/errors.funcname" = "funcname" ∧
    funcname "main.(*R).Write" = "(*R).Write" ∧
    funcname "funcname" = "funcname" ∧
    funcname "" = "" := by
  have hsl : '/' ≠ '.' := by decide
  have hbc : '/' ∉ b.toList ++ '.' :: c.toList := by
    simp only [List.mem_append, List.mem_cons, not_or]
    exact ⟨hb, hsl, hc⟩
  refine ⟨?_, ?_, ?_, ?_, by decide, by decide, by decide, by decide⟩
  · have e : (a ++ "/" ++ b ++ "." ++ c).toList
        = a.toList ++ '/' :: (b.toList ++ '.' :: c.toList) := by
      simp [String.toList, String.data_append]
    rw [funcname, e, stripThroughLast_append '/' _ hbc,
      stripThroughFirst_append '.' _ _ hb2]
    rfl
  · have e : (b ++ "." ++ c).toList = b.toList ++ '.' :: c.toList := by
      simp [String.toList, String.data_append]
    rw [funcname, e, stripThroughLast_of_not_mem '/' _ hbc,
      stripThroughFirst_append '.' _ _ hb2]
    rfl
  · have e : (a ++ "/" ++ b).toList = a.toList ++ '/' :: b.toList := by
      simp [String.toList, String.data_append]
    rw [funcname, e, stripThroughLast_append '/' _ hb,
      stripThroughFirst_of_not_mem '.' _ hb2]
    rfl
  · rw [funcname, stripThroughLast_of_not_mem '/' _ hb,
      stripThroughFirst_of_not_mem '.' _ hb2]
    rfl

/-- The name `github.com/pkg/errors.funcname` of the test, taken apart. -/
theorem funcname_spec_witness :
    '/' ∉ "errors".toList ∧ '.' ∉ "errors".toList ∧ '/' ∉ "funcname".toList ∧
    (funcname ("github.com/pkg" ++ "/" ++ "errors" ++ "." ++ "funcname") = "funcname" ∧
      funcname ("errors" ++ "." ++ "funcname") = "funcname" ∧
      funcname ("github.com/pkg" ++ "/" ++ "errors") = "errors" ∧
      funcname "errors" = "errors" ∧
      funcname "github.com/pkg/errors.funcname" = "funcname" ∧
      funcname "main.(*R).Write" = "(*R).Write" ∧
      funcname "funcname" = "funcname" ∧
      funcname "" = "") :=
  ⟨by decide, by decide, by decide,
    funcname_spec "github.com/pkg" "errors" "funcname" (by decide) (by decide) (by decide)⟩

/-! ## `stack.go`: formatting a stack trace -/

/-- C7. A nil `StackTrace` and a zero-length `StackTrace` both format as `[]`
under the compact verbs `%s` and `%v`, and as the empty string, without a
newline, under the verbose verb `%+v`, whatever the rendering of a frame. -/
theorem StackTrace_Format_empty {F : Type} (render : Verb → F → String) :
    StackTrace.Format render .s none = "[]" ∧
    StackTrace.Format render .s (some []) = "[]" ∧
    StackTrace.Format render .v none = "[]" ∧
    StackTrace.Format render .v (some []) = "[]" ∧
    StackTrace.Format render .plusV none = "" ∧
    StackTrace.Format render .plusV (some []) = "" := by
  have e : "[" ++ "]" = "[]" := by decide
  exact ⟨e, e, e, e, rfl, rfl⟩

theorem String.intercalate_go_append (p s : String) (l : List String) :
    ∀ acc : String, p ++ String.intercalate.go acc s l = String.intercalate.go (p ++ acc) s l := by
  induction l with
  | nil => intro acc; rfl
  | cons a rest ih =>
    intro acc
    simp only [String.intercalate.go]
    rw [ih, String.append_assoc, String.append_assoc, String.append_assoc]

/-- After the first frame, the loop of the compact verbs writes a space and a
rendering for every frame left. -/
theorem StackTrace.writeFrames_succ {F : Type} (render : F → String) (l : List F) :
    ∀ (i : Nat) (buf : String),
      StackTrace.writeFrames render (i + 1) l buf
        = String.intercalate.go buf " " (l.map render) := by
  induction l with
  | nil => intro i buf; rfl
  | cons f rest ih =>
    intro i buf
    simp only [StackTrace.writeFrames, List.map_cons, String.intercalate.go]
    rw [ih, if_pos (Nat.succ_pos i)]

/-- The loop of the compact verbs, entered with an open bracket, writes the
renderings of the frames separated by single spaces. -/
theorem StackTrace.writeFrames_bracket {F : Type} (render : F → String) (l : List F) :
    StackTrace.writeFrames render 0 l "[" = "[" ++ " ".intercalate (l.map render) := by
  cases l with
  | nil => rfl
  | cons f rest =>
    simp only [StackTrace.writeFrames, List.map_cons, String.intercalate]
    rw [StackTrace.writeFrames_succ, if_neg (Nat.lt_irrefl 0), String.intercalate_go_append]

/-- C8. A `StackTrace`, non-empty in particular, formats under `%s` (under
`%v`) as `[`, then the `%s` (the `%v`) rendering of each frame in the order of
the trace with one space between two of them, then `]`.  For two resolvable
frames this is `[file1 file2]` under `%s` and `[file1:line1 file2:line2]`
under `%v`, the files being base names. -/
theorem StackTrace_Format_compact {F : Type} (render : Verb → F → String)
    (frames : List F)
    (m : FrameMethods F) (shorten : String → String) (f1 f2 : F)
    (h1 : m.resolved f1 = true) (h2 : m.resolved f2 = true) :
    StackTrace.Format render .s (some frames)
      = "[" ++ " ".intercalate (frames.map (render .s)) ++ "]" ∧
    StackTrace.Format render .v (some frames)
      = "[" ++ " ".intercalate (frames.map (render .v)) ++ "]" ∧
    StackTrace.Format (Frame.Format m shorten) .s (some [f1, f2])
      = "[" ++ basename (m.file f1) ++ " " ++ basename (m.file f2) ++ "]" ∧
    StackTrace.Format (Frame.Format m shorten) .v (some [f1, f2])
      = "[" ++ basename (m.file f1) ++ ":" ++ toString (m.line f1) ++ " "
          ++ basename (m.file f2) ++ ":" ++ toString (m.line f2) ++ "]" := by
  refine ⟨?_, ?_, ?_, ?_⟩
  · simp only [StackTrace.Format, Option.getD_some, StackTrace.writeFrames_bracket]
  · simp only [StackTrace.Format, Option.getD_some, StackTrace.writeFrames_bracket]
  · simp only [StackTrace.Format, Option.getD_some, StackTrace.writeFrames, Frame.Format,
      h1, h2, if_true, Nat.lt_irrefl, if_false, Nat.zero_add, Nat.lt_one_iff, Nat.zero_lt_one,
      String.append_assoc]
  · simp only [StackTrace.Format, Option.getD_some, StackTrace.writeFrames, Frame.Format,
      h1, h2, if_true, Nat.lt_irrefl, if_false, Nat.zero_add, Nat.lt_one_iff, Nat.zero_lt_one,
      String.append_assoc]

/-- Two frames of `stack_go18.go` inside the function of the demonstration
symbol table, on 64-bit words, without path shortening. -/
theorem StackTrace_Format_compact_witness :
    (Go18.Frame.methods demoRuntime 64).resolved { pcp := 151 } = true ∧
    (Go18.Frame.methods demoRuntime 64).resolved { pcp := 161 } = true ∧
    (StackTrace.Format (Frame.Format (Go18.Frame.methods demoRuntime 64) id) .s
        (some [{ pcp := 151 }, { pcp := 161 }])
      = "[" ++ " ".intercalate
          (([{ pcp := 151 }, { pcp := 161 }] : List Go18.Frame).map
            (Frame.Format (Go18.Frame.methods demoRuntime 64) id .s)) ++ "]" ∧
    StackTrace.Format (Frame.Format (Go18.Frame.methods demoRuntime 64) id) .v
        (some [{ pcp := 151 }, { pcp := 161 }])
      = "[" ++ " ".intercalate
          (([{ pcp := 151 }, { pcp := 161 }] : List Go18.Frame).map
            (Frame.Format (Go18.Frame.methods demoRuntime 64) id .v)) ++ "]" ∧
    StackTrace.Format (Frame.Format (Go18.Frame.methods demoRuntime 64) id) .s
        (some [{ pcp := 151 }, { pcp := 161 }])
      = "[" ++ basename ((Go18.Frame.methods demoRuntime 64).file { pcp := 151 }) ++ " "
          ++ basename ((Go18.Frame.methods demoRuntime 64).file { pcp := 161 }) ++ "]" ∧
    StackTrace.Format (Frame.Format (Go18.Frame.methods demoRuntime 64) id) .v
        (some [{ pcp := 151 }, { pcp := 161 }])
      = "[" ++ basename ((Go18.Frame.methods demoRuntime 64).file { pcp := 151 }) ++ ":"
          ++ toString ((Go18.Frame.methods demoRuntime 64).line { pcp := 151 }) ++ " "
          ++ basename ((Go18.Frame.methods demoRuntime 64).file { pcp := 161 }) ++ ":"
          ++ toString ((Go18.Frame.methods demoRuntime 64).line { pcp := 161 }) ++ "]") :=
  ⟨by decide, by decide,
    StackTrace_Format_compact (Frame.Format (Go18.Frame.methods demoRuntime 64) id)
      [{ pcp := 151 }, { pcp := 161 }]
      (Go18.Frame.methods demoRuntime 64) id { pcp := 151 } { pcp := 161 }
      (by decide) (by decide)⟩

/-- The two frames of the demonstration symbol table, rendered. -/
theorem StackTrace_Format_demo :
    StackTrace.Format (Frame.Format (Go18.Frame.methods demoRuntime 64) id) .s
        (some [{ pcp := 151 }, { pcp := 161 }]) = "[stack_test.go stack_test.go]" ∧
    StackTrace.Format (Frame.Format (Go18.Frame.methods demoRuntime 64) id) .v
        (some [{ pcp := 151 }, { pcp := 161 }]) = "[stack_test.go:150 stack_test.go:160]" := by
  constructor <;> decide
